import Mathlib

/-!
Verification development for the otaprotocol/relayer repository.

Part 1 embeds the secure field codec of src/utils/secure.ts:
encryptField and decryptField implement AES-256-CBC (through the external
node:crypto createCipheriv / createDecipheriv) over a key derived from the
action code, with a random 16-byte IV, producing "ivHex:cipherHex".
The AES block primitive itself is external library code, so it is modelled
abstractly as a BlockCipher: per key, a length-preserving map on 16-byte
blocks with a left inverse.  Everything the repository adds around it:
CBC chaining, PKCS#7 padding (what node applies for aes-256-cbc),
hex encoding, the ":" split, and the failure conditions of decryption,
is embedded concretely.  Plaintext strings are modelled by their UTF-8
byte sequences, JS strings holding hex by their character lists.
-/

namespace Relayer

/-- A byte, as held by a Node Buffer. -/
abbrev Byte := Fin 256

/-- Bytewise xor of two bytes. -/
def byteXor (a b : Byte) : Byte :=
  ⟨a.val ^^^ b.val, by
    have := Nat.xor_lt_two_pow (n := 8) a.isLt b.isLt
    simpa using this⟩

/-- Bytewise xor of two buffers (CBC chaining step), truncating to the shorter. -/
def xorBytes (xs ys : List Byte) : List Byte := List.zipWith byteXor xs ys

/-- Abstract model of the AES-256 block primitive reached through
node:crypto createCipheriv / createDecipheriv with "aes-256-cbc".
The relayer treats the cipher as an external collaborator; the only
properties its code relies on are that, for each key, encryption maps
16-byte blocks to 16-byte blocks and decryption undoes encryption. -/
structure BlockCipher where
  enc : List Byte → List Byte → List Byte
  dec : List Byte → List Byte → List Byte
  enc_length : ∀ k b, b.length = 16 → (enc k b).length = 16
  dec_enc : ∀ k b, b.length = 16 → dec k (enc k b) = b

/-- Lowercase hex digit, as produced by Buffer.toString with hex encoding. -/
def hexChar (n : Nat) : Char :=
  if n < 10 then Char.ofNat (48 + n) else Char.ofNat (87 + n)

/-- Value of one hex digit character (upper or lower case), none when invalid;
used to model the hex decoding done by Buffer.from with hex encoding. -/
def hexVal (c : Char) : Option (Fin 16) :=
  if h : 48 ≤ c.toNat ∧ c.toNat ≤ 57 then some ⟨c.toNat - 48, by omega⟩
  else if h : 97 ≤ c.toNat ∧ c.toNat ≤ 102 then some ⟨c.toNat - 87, by omega⟩
  else if h : 65 ≤ c.toNat ∧ c.toNat ≤ 70 then some ⟨c.toNat - 55, by omega⟩
  else none

/-- Buffer.toString with hex encoding: two lowercase hex digits per byte. -/
def hexOfBytes : List Byte → List Char
  | [] => []
  | b :: bs => hexChar (b.val / 16) :: hexChar (b.val % 16) :: hexOfBytes bs

/-- Buffer.from with hex encoding: node decodes hex pairs left to right and
stops (without throwing) at the first invalid pair or at an odd trailing digit. -/
def bytesOfHex : List Char → List Byte
  | c1 :: c2 :: rest =>
    match hexVal c1, hexVal c2 with
    | some h, some l => ⟨h.val * 16 + l.val, by omega⟩ :: bytesOfHex rest
    | _, _ => []
  | _ => []

/-- JS String.prototype.split with a one-character separator, on character
lists; always returns at least one part. -/
def splitColon : List Char → List (List Char)
  | [] => [[]]
  | c :: rest =>
    if c = ':' then [] :: splitColon rest
    else
      match splitColon rest with
      | [] => [[c]]
      | p :: ps => (c :: p) :: ps

/-- PKCS#7 padding to a multiple of 16 bytes, as node applies for aes-256-cbc:
append n copies of the byte n, where n = 16 - len % 16 is between 1 and 16. -/
def pkcs7pad (data : List Byte) : List Byte :=
  data ++ List.replicate (16 - data.length % 16)
    ⟨16 - data.length % 16, by omega⟩

/-- PKCS#7 unpadding, as checked by decipher.final: the last byte n must be
in 1..16, and the last n bytes must all equal n; otherwise decryption errors. -/
def pkcs7unpad (data : List Byte) : Option (List Byte) :=
  match data.getLast? with
  | none => none
  | some last =>
    if (1 ≤ last.val && last.val ≤ 16 && last.val ≤ data.length
        && (data.drop (data.length - last.val)).all (fun b => decide (b = last)))
    then some (data.take (data.length - last.val))
    else none

/-- Split a buffer into 16-byte blocks (fuel-indexed for structural recursion). -/
def toBlocksAux : Nat → List Byte → List (List Byte)
  | 0, _ => []
  | _, [] => []
  | fuel + 1, l => l.take 16 :: toBlocksAux fuel (l.drop 16)

/-- Split a buffer into 16-byte blocks. -/
def toBlocks (l : List Byte) : List (List Byte) := toBlocksAux l.length l

/-- CBC encryption over a block list: each plaintext block is xored with the
previous ciphertext block (initially the IV) and then enciphered. -/
def cbcEncBlocks (C : BlockCipher) (key : List Byte) :
    List Byte → List (List Byte) → List (List Byte)
  | _, [] => []
  | prev, b :: bs =>
    let c := C.enc key (xorBytes prev b)
    c :: cbcEncBlocks C key c bs

/-- CBC decryption over a block list. -/
def cbcDecBlocks (C : BlockCipher) (key : List Byte) :
    List Byte → List (List Byte) → List (List Byte)
  | _, [] => []
  | prev, c :: cs => xorBytes prev (C.dec key c) :: cbcDecBlocks C key c cs

/-- encryptField of src/utils/secure.ts.  value is the UTF-8 byte sequence of
the plaintext string, code the action code as a character list.  kdf models
deriveKey (sha256 of the code, 32 bytes, via the external js-sha256); iv models
the randomBytes(16) draw, passed explicitly since the embedding is pure.
Output is the JS template string ivHex ++ ":" ++ cipherHex. -/
def encryptField (C : BlockCipher) (kdf : List Char → List Byte)
    (value : List Byte) (code : List Char) (iv : List Byte) : List Char :=
  let key := kdf code
  let ct := (cbcEncBlocks C key iv (toBlocks (pkcs7pad value))).flatten
  hexOfBytes iv ++ ':' :: hexOfBytes ct

/-- decryptField of src/utils/secure.ts.  Splits on ":", hex-decodes both
halves (node decodes hex leniently and never throws there), then decrypts.
none models a throw: createDecipheriv rejects an IV that is not 16 bytes;
decipher.update / decipher.final reject ciphertext that is empty or not a
multiple of the block size, and final rejects invalid PKCS#7 padding.
When the split yields a single part, encryptedHex is the JS undefined and
Buffer.from throws.  Extra parts past the second are dropped by the
destructuring, as in the source. -/
def decryptField (C : BlockCipher) (kdf : List Char → List Byte)
    (encrypted : List Char) (code : List Char) : Option (List Byte) :=
  match splitColon encrypted with
  | [] => none
  | [_] => none
  | ivHex :: encryptedHex :: _ =>
    let iv := bytesOfHex ivHex
    let encryptedBuf := bytesOfHex encryptedHex
    if iv.length = 16 then
      if encryptedBuf.length % 16 = 0 ∧ encryptedBuf.length ≠ 0 then
        pkcs7unpad ((cbcDecBlocks C (kdf code) iv (toBlocks encryptedBuf)).flatten)
      else none
    else none

/-- The identity block cipher: a degenerate but legal instance of the
abstract cipher interface, used to evaluate the codec on concrete inputs. -/
def idCipher : BlockCipher where
  enc := fun _ b => b
  dec := fun _ b => b
  enc_length := fun _ _ h => h
  dec_enc := fun _ _ _ => rfl

/-- Byte xor is self-inverse. -/
theorem byteXor_byteXor_self (a b : Byte) : byteXor a (byteXor a b) = b := by
  apply Fin.ext
  show a.val ^^^ (a.val ^^^ b.val) = b.val
  rw [← Nat.xor_assoc, Nat.xor_self, Nat.zero_xor]

/-- Length of a bytewise xor. -/
theorem xorBytes_length (xs ys : List Byte) :
    (xorBytes xs ys).length = min xs.length ys.length := by
  simp [xorBytes]

/-- Bytewise xor with a buffer at least as long is self-inverse. -/
theorem xorBytes_xorBytes_self (ys : List Byte) :
    ∀ xs : List Byte, ys.length ≤ xs.length → xorBytes xs (xorBytes xs ys) = ys := by
  induction ys with
  | nil => intro xs _; simp [xorBytes]
  | cons y ys ih =>
    intro xs h
    cases xs with
    | nil => simp at h
    | cons x xs =>
      simp only [xorBytes, List.zipWith_cons_cons]
      rw [show List.zipWith byteXor xs (List.zipWith byteXor xs ys) = xorBytes xs (xorBytes xs ys) from rfl]
      rw [byteXor_byteXor_self, ih xs (by simpa using h)]

/-- A concrete key-sensitive instance of the abstract cipher interface:
xor each block with the first 16 bytes of the (zero-padded) key.  Like AES,
it is for each key a permutation of 16-byte blocks; it is used to evaluate
the codec at concrete inputs. -/
def keyPad (k : List Byte) : List Byte := (k ++ List.replicate 16 (0 : Byte)).take 16

/-- keyPad always yields 16 bytes. -/
theorem keyPad_length (k : List Byte) : (keyPad k).length = 16 := by
  simp [keyPad]

/-- The xor-with-key block cipher. -/
def xorCipher : BlockCipher where
  enc := fun k b => xorBytes (keyPad k) b
  dec := fun k b => xorBytes (keyPad k) b
  enc_length := by
    intro k b hb
    rw [xorBytes_length, keyPad_length, hb]
    rfl
  dec_enc := by
    intro k b hb
    exact xorBytes_xorBytes_self b (keyPad k) (by rw [keyPad_length, hb])

/-- Key derivation used when evaluating the codec at concrete inputs: the
byte values of the code characters (standing in for an arbitrary kdf). -/
def charKdf (code : List Char) : List Byte :=
  code.map (fun c => ⟨c.toNat % 256, Nat.mod_lt _ (by norm_num)⟩)

/-- Decoding a hex digit written by hexChar recovers its value. -/
theorem hexVal_hexChar : ∀ n : Fin 16, hexVal (hexChar n.val) = some n := by decide

/-- Hex digits are never the colon separator. -/
theorem hexChar_ne_colon : ∀ n : Fin 16, hexChar n.val ≠ ':' := by decide

/-- Hex decoding inverts hex encoding. -/
theorem bytesOfHex_hexOfBytes : ∀ bs : List Byte, bytesOfHex (hexOfBytes bs) = bs := by
  intro bs
  induction bs with
  | nil => rfl
  | cons b bs ih =>
    have hb := b.isLt
    have h1 : b.val / 16 < 16 := by omega
    have h2 : b.val % 16 < 16 := by omega
    have e1 : hexVal (hexChar (b.val / 16)) = some ⟨b.val / 16, h1⟩ :=
      hexVal_hexChar ⟨b.val / 16, h1⟩
    have e2 : hexVal (hexChar (b.val % 16)) = some ⟨b.val % 16, h2⟩ :=
      hexVal_hexChar ⟨b.val % 16, h2⟩
    have hfin : (⟨b.val / 16 * 16 + b.val % 16, by omega⟩ : Byte) = b := by
      apply Fin.ext
      show b.val / 16 * 16 + b.val % 16 = b.val
      omega
    show bytesOfHex (hexChar (b.val / 16) :: hexChar (b.val % 16) :: hexOfBytes bs) = b :: bs
    simp only [bytesOfHex, e1, e2, ih, hfin]

/-- The colon separator does not occur in hex-encoded output. -/
theorem colon_not_mem_hexOfBytes : ∀ bs : List Byte, ':' ∉ hexOfBytes bs := by
  intro bs
  induction bs with
  | nil => simp [hexOfBytes]
  | cons b bs ih =>
    have hb := b.isLt
    have h1 : b.val / 16 < 16 := by omega
    have h2 : b.val % 16 < 16 := by omega
    have n1 := hexChar_ne_colon ⟨b.val / 16, h1⟩
    have n2 := hexChar_ne_colon ⟨b.val % 16, h2⟩
    show ':' ∉ hexChar (b.val / 16) :: hexChar (b.val % 16) :: hexOfBytes bs
    simp only [List.mem_cons, not_or]
    exact ⟨fun h => n1 h.symm, fun h => n2 h.symm, ih⟩

/-- Unfolding equation for splitColon on a cons cell. -/
theorem splitColon_cons (c : Char) (l : List Char) :
    splitColon (c :: l) =
      if c = ':' then [] :: splitColon l
      else
        match splitColon l with
        | [] => [[c]]
        | p :: ps => (c :: p) :: ps := rfl

/-- Splitting a colon-free list yields exactly that list. -/
theorem splitColon_of_not_mem : ∀ l : List Char, ':' ∉ l → splitColon l = [l] := by
  intro l
  induction l with
  | nil => intro _; rfl
  | cons c rest ih =>
    intro h
    have hc : ¬(c = ':') := fun hc => h (hc ▸ List.mem_cons_self c rest)
    have hr : ':' ∉ rest := fun hm => h (List.mem_cons_of_mem c hm)
    rw [splitColon_cons, if_neg hc, ih hr]

/-- Splitting a list that starts with a colon-free part followed by a colon. -/
theorem splitColon_append : ∀ (a b : List Char), ':' ∉ a →
    splitColon (a ++ ':' :: b) = a :: splitColon b := by
  intro a
  induction a with
  | nil =>
    intro b _
    rw [List.nil_append, splitColon_cons, if_pos rfl]
  | cons c a ih =>
    intro b h
    have hc : ¬(c = ':') := fun hc => h (hc ▸ List.mem_cons_self c a)
    have ha : ':' ∉ a := fun hm => h (List.mem_cons_of_mem c hm)
    rw [List.cons_append, splitColon_cons, if_neg hc, ih b ha]

/-- Length of the PKCS#7-padded buffer. -/
theorem pkcs7pad_length (v : List Byte) :
    (pkcs7pad v).length = v.length + (16 - v.length % 16) := by
  simp [pkcs7pad]

/-- The padded buffer has a (positive) multiple-of-16 length. -/
theorem pkcs7pad_length_mod (v : List Byte) :
    (pkcs7pad v).length % 16 = 0 ∧ (pkcs7pad v).length ≠ 0 := by
  rw [pkcs7pad_length]
  omega

/-- The last element of a nonempty replicate. -/
theorem getLast?_replicate_pos {α : Type} (n : Nat) (x : α) (h : 0 < n) :
    (List.replicate n x).getLast? = some x := by
  cases n with
  | zero => omega
  | succ m =>
    rw [List.getLast?_eq_head?_reverse, List.reverse_replicate]
    rfl

/-- PKCS#7 unpadding recovers the data in front of a well-formed padding block. -/
theorem pkcs7unpad_append_replicate (v : List Byte) (n : Nat) (h1 : 1 ≤ n)
    (h16 : n ≤ 16) (x : Byte) (hx : x.val = n) :
    pkcs7unpad (v ++ List.replicate n x) = some v := by
  have hrep : List.replicate n x ≠ [] := by
    intro hnil
    have hlr : (List.replicate n x).length = 0 := by rw [hnil]; rfl
    rw [List.length_replicate] at hlr
    omega
  have hlast : (v ++ List.replicate n x).getLast? = some x := by
    rw [List.getLast?_append_of_ne_nil v hrep]
    exact getLast?_replicate_pos n x (by omega)
  have hlen : (v ++ List.replicate n x).length = v.length + n := by simp
  have hd : (v ++ List.replicate n x).length - x.val = v.length := by
    rw [hx, hlen]; omega
  have hdrop : (v ++ List.replicate n x).drop v.length = List.replicate n x :=
    List.drop_left v _
  have htake : (v ++ List.replicate n x).take v.length = v := List.take_left v _
  simp only [pkcs7unpad, hlast]
  split
  · rw [hd, htake]
  · rename_i hcontra
    exfalso
    apply hcontra
    rw [hd, hdrop]
    simp only [Bool.and_eq_true, decide_eq_true_eq, List.all_eq_true, List.mem_replicate]
    refine ⟨⟨⟨by omega, by omega⟩, by rw [hx, hlen]; omega⟩, ?_⟩
    intro b hb
    simp [hb.2]

/-- PKCS#7 unpadding inverts PKCS#7 padding. -/
theorem pkcs7unpad_pkcs7pad (v : List Byte) : pkcs7unpad (pkcs7pad v) = some v := by
  have h : v.length % 16 < 16 := by omega
  exact pkcs7unpad_append_replicate v (16 - v.length % 16) (by omega) (by omega) _ rfl

/-- toBlocksAux on the empty buffer. -/
theorem toBlocksAux_nil (fuel : Nat) : toBlocksAux fuel [] = [] := by
  cases fuel <;> rfl

/-- Unfolding equation for toBlocksAux on a cons cell. -/
theorem toBlocksAux_cons (fuel : Nat) (c : Byte) (cs : List Byte) :
    toBlocksAux (fuel + 1) (c :: cs) =
      (c :: cs).take 16 :: toBlocksAux fuel ((c :: cs).drop 16) := rfl

/-- Regrouping the concatenation of 16-byte blocks recovers the blocks. -/
theorem toBlocksAux_flatten : ∀ (bs : List (List Byte)) (fuel : Nat),
    (∀ b ∈ bs, b.length = 16) → bs.flatten.length ≤ fuel →
    toBlocksAux fuel bs.flatten = bs := by
  intro bs
  induction bs with
  | nil => intro fuel _ _; exact toBlocksAux_nil fuel
  | cons b bs ih =>
    intro fuel hall hfuel
    have hb : b.length = 16 := hall b (List.mem_cons_self b bs)
    have hflat : (b :: bs).flatten = b ++ bs.flatten := by simp
    rw [hflat] at hfuel ⊢
    have hlen : (b ++ bs.flatten).length = 16 + bs.flatten.length := by
      simp [hb]
    cases fuel with
    | zero => rw [hlen] at hfuel; omega
    | succ f =>
      cases b with
      | nil => simp at hb
      | cons x xs =>
        rw [show (x :: xs) ++ bs.flatten = x :: (xs ++ bs.flatten) from rfl,
            toBlocksAux_cons]
        have htk : (x :: (xs ++ bs.flatten)).take 16 = x :: xs := by
          rw [show x :: (xs ++ bs.flatten) = (x :: xs) ++ bs.flatten from rfl, ← hb]
          exact List.take_left _ _
        have hdr : (x :: (xs ++ bs.flatten)).drop 16 = bs.flatten := by
          rw [show x :: (xs ++ bs.flatten) = (x :: xs) ++ bs.flatten from rfl, ← hb]
          exact List.drop_left _ _
        rw [htk, hdr, ih f (fun b hbmem => hall b (List.mem_cons_of_mem _ hbmem))]
        rw [hlen] at hfuel
        omega

/-- Flattening the blocks of a buffer recovers the buffer. -/
theorem flatten_toBlocksAux : ∀ (fuel : Nat) (l : List Byte), l.length ≤ fuel →
    (toBlocksAux fuel l).flatten = l := by
  intro fuel
  induction fuel with
  | zero =>
    intro l hl
    cases l with
    | nil => rfl
    | cons c cs => simp at hl
  | succ f ih =>
    intro l hl
    cases l with
    | nil => rfl
    | cons c cs =>
      rw [toBlocksAux_cons]
      have hdl : ((c :: cs).drop 16).length ≤ f := by
        rw [List.length_drop]
        simp only [List.length_cons] at hl ⊢
        omega
      simp only [List.flatten_cons, ih _ hdl, List.take_append_drop]

/-- Flattening the blocks of a buffer recovers the buffer. -/
theorem flatten_toBlocks (l : List Byte) : (toBlocks l).flatten = l :=
  flatten_toBlocksAux l.length l (Nat.le_refl _)

/-- Every block of a buffer whose length is a positive multiple of 16 has 16 bytes. -/
theorem toBlocksAux_all16 : ∀ (fuel : Nat) (l : List Byte), l.length ≤ fuel →
    l.length % 16 = 0 → ∀ b ∈ toBlocksAux fuel l, b.length = 16 := by
  intro fuel
  induction fuel with
  | zero =>
    intro l hl _ b hb
    cases l with
    | nil => simp [toBlocksAux_nil] at hb
    | cons c cs => simp at hl
  | succ f ih =>
    intro l hl hmod b hb
    cases l with
    | nil => simp [toBlocksAux_nil] at hb
    | cons c cs =>
      rw [toBlocksAux_cons] at hb
      have hlpos : (c :: cs).length ≠ 0 := by simp
      have hge : 16 ≤ (c :: cs).length := by
        rcases Nat.lt_or_ge (c :: cs).length 16 with hlt | hge
        · omega
        · exact hge
      rcases List.mem_cons.mp hb with hb1 | hb2
      · rw [hb1, List.length_take]
        omega
      · refine ih _ ?_ ?_ b hb2
        · rw [List.length_drop]
          simp only [List.length_cons] at hl ⊢
          omega
        · rw [List.length_drop]
          omega

/-- Every block of a buffer whose length is a multiple of 16 has 16 bytes. -/
theorem toBlocks_all16 (l : List Byte) (h : l.length % 16 = 0) :
    ∀ b ∈ toBlocks l, b.length = 16 :=
  toBlocksAux_all16 l.length l (Nat.le_refl _) h

/-- toBlocks of a nonempty buffer is nonempty. -/
theorem toBlocks_ne_nil (l : List Byte) (h : l ≠ []) : toBlocks l ≠ [] := by
  cases l with
  | nil => exact absurd rfl h
  | cons c cs =>
    show toBlocksAux (c :: cs).length (c :: cs) ≠ []
    rw [show (c :: cs).length = cs.length + 1 from rfl, toBlocksAux_cons]
    exact List.cons_ne_nil _ _

/-- CBC encryption yields one ciphertext block per plaintext block. -/
theorem cbcEncBlocks_length (C : BlockCipher) (key : List Byte) :
    ∀ (blocks : List (List Byte)) (prev : List Byte),
    (cbcEncBlocks C key prev blocks).length = blocks.length := by
  intro blocks
  induction blocks with
  | nil => intro prev; rfl
  | cons b bs ih =>
    intro prev
    show (_ :: cbcEncBlocks C key _ bs).length = _
    simp only [List.length_cons, ih]

/-- All CBC ciphertext blocks are 16 bytes long. -/
theorem cbcEncBlocks_all16 (C : BlockCipher) (key : List Byte) :
    ∀ (blocks : List (List Byte)) (prev : List Byte), prev.length = 16 →
    (∀ b ∈ blocks, b.length = 16) →
    ∀ c ∈ cbcEncBlocks C key prev blocks, c.length = 16 := by
  intro blocks
  induction blocks with
  | nil => intro prev _ _ c hc; simp [cbcEncBlocks] at hc
  | cons b bs ih =>
    intro prev hprev hall c hc
    have hb : b.length = 16 := hall b (List.mem_cons_self b bs)
    have hxor : (xorBytes prev b).length = 16 := by
      rw [xorBytes_length, hprev, hb]; rfl
    have henc : (C.enc key (xorBytes prev b)).length = 16 := C.enc_length key _ hxor
    have hc2 : c ∈ C.enc key (xorBytes prev b)
        :: cbcEncBlocks C key (C.enc key (xorBytes prev b)) bs := hc
    rcases List.mem_cons.mp hc2 with hc1 | hc2
    · rw [hc1]; exact henc
    · exact ih _ henc (fun x hx => hall x (List.mem_cons_of_mem _ hx)) c hc2

/-- CBC decryption inverts CBC encryption, blockwise. -/
theorem cbcDecBlocks_cbcEncBlocks (C : BlockCipher) (key : List Byte) :
    ∀ (blocks : List (List Byte)) (prev : List Byte), prev.length = 16 →
    (∀ b ∈ blocks, b.length = 16) →
    cbcDecBlocks C key prev (cbcEncBlocks C key prev blocks) = blocks := by
  intro blocks
  induction blocks with
  | nil => intro prev _ _; rfl
  | cons b bs ih =>
    intro prev hprev hall
    have hb : b.length = 16 := hall b (List.mem_cons_self b bs)
    have hxor : (xorBytes prev b).length = 16 := by
      rw [xorBytes_length, hprev, hb]; rfl
    have henc : (C.enc key (xorBytes prev b)).length = 16 := C.enc_length key _ hxor
    show cbcDecBlocks C key prev
        (C.enc key (xorBytes prev b) :: cbcEncBlocks C key _ bs) = b :: bs
    show xorBytes prev (C.dec key (C.enc key (xorBytes prev b)))
        :: cbcDecBlocks C key _ (cbcEncBlocks C key _ bs) = b :: bs
    rw [C.dec_enc key _ hxor,
        xorBytes_xorBytes_self b prev (by rw [hprev, hb]),
        ih _ henc (fun x hx => hall x (List.mem_cons_of_mem _ hx))]

/-- Concatenation of 16-byte blocks has length a multiple of 16. -/
theorem flatten_length_all16 : ∀ bs : List (List Byte),
    (∀ b ∈ bs, b.length = 16) → bs.flatten.length = 16 * bs.length := by
  intro bs
  induction bs with
  | nil => intro _; rfl
  | cons b bs ih =>
    intro hall
    have hb : b.length = 16 := hall b (List.mem_cons_self b bs)
    simp only [List.flatten_cons, List.length_append, List.length_cons, hb,
      ih (fun x hx => hall x (List.mem_cons_of_mem _ hx))]
    ring

/-- What decryptField computes on an encryptField output, for any decryption
code: the hex/split framing always succeeds and the result is the PKCS#7
unpadding of the CBC decryption under the key derived from the decryption code. -/
theorem decryptField_encryptField_eq (C : BlockCipher) (kdf : List Char → List Byte)
    (value : List Byte) (code code2 : List Char) (iv : List Byte)
    (hiv : iv.length = 16) :
    decryptField C kdf (encryptField C kdf value code iv) code2 =
      pkcs7unpad ((cbcDecBlocks C (kdf code2) iv
        (cbcEncBlocks C (kdf code) iv (toBlocks (pkcs7pad value)))).flatten) := by
  have hpadmod := (pkcs7pad_length_mod value).1
  have hpadne : pkcs7pad value ≠ [] := by
    intro h
    have h2 := (pkcs7pad_length_mod value).2
    rw [h] at h2
    exact h2 rfl
  have hballs : ∀ b ∈ toBlocks (pkcs7pad value), b.length = 16 :=
    toBlocks_all16 _ hpadmod
  have hencall : ∀ b ∈ cbcEncBlocks C (kdf code) iv (toBlocks (pkcs7pad value)),
      b.length = 16 :=
    cbcEncBlocks_all16 C (kdf code) _ iv hiv hballs
  have hct : (cbcEncBlocks C (kdf code) iv (toBlocks (pkcs7pad value))).flatten.length
      = 16 * (cbcEncBlocks C (kdf code) iv (toBlocks (pkcs7pad value))).length :=
    flatten_length_all16 _ hencall
  have henclen : (cbcEncBlocks C (kdf code) iv (toBlocks (pkcs7pad value))).length
      = (toBlocks (pkcs7pad value)).length :=
    cbcEncBlocks_length C (kdf code) _ iv
  have hbne : toBlocks (pkcs7pad value) ≠ [] := toBlocks_ne_nil _ hpadne
  have hblen : 1 ≤ (toBlocks (pkcs7pad value)).length := by
    cases hh : toBlocks (pkcs7pad value) with
    | nil => exact absurd hh hbne
    | cons x xs => simp
  have hsplit : splitColon (encryptField C kdf value code iv) =
      [hexOfBytes iv,
       hexOfBytes (cbcEncBlocks C (kdf code) iv (toBlocks (pkcs7pad value))).flatten] := by
    show splitColon (hexOfBytes iv ++ ':' :: hexOfBytes _) = _
    rw [splitColon_append _ _ (colon_not_mem_hexOfBytes iv),
        splitColon_of_not_mem _ (colon_not_mem_hexOfBytes _)]
  have hctcond :
      (cbcEncBlocks C (kdf code) iv (toBlocks (pkcs7pad value))).flatten.length % 16 = 0
      ∧ (cbcEncBlocks C (kdf code) iv (toBlocks (pkcs7pad value))).flatten.length ≠ 0 := by
    rw [hct, henclen]
    omega
  have htb : toBlocks (cbcEncBlocks C (kdf code) iv (toBlocks (pkcs7pad value))).flatten
      = cbcEncBlocks C (kdf code) iv (toBlocks (pkcs7pad value)) :=
    toBlocksAux_flatten _ _ hencall (Nat.le_refl _)
  simp only [decryptField, hsplit, bytesOfHex_hexOfBytes]
  rw [if_pos hiv, if_pos hctcond, htb]

/-- C1: decrypting an encryptField output with the same code returns the
plaintext, for every block cipher, key derivation, value, code, and 16-byte IV. -/
theorem decryptField_encryptField (C : BlockCipher) (kdf : List Char → List Byte)
    (value : List Byte) (code : List Char) (iv : List Byte) (hiv : iv.length = 16) :
    decryptField C kdf (encryptField C kdf value code iv) code = some value := by
  rw [decryptField_encryptField_eq C kdf value code code iv hiv,
      cbcDecBlocks_cbcEncBlocks C (kdf code) _ iv hiv
        (toBlocks_all16 _ (pkcs7pad_length_mod value).1),
      flatten_toBlocks, pkcs7unpad_pkcs7pad]

/-- C6 (amended): decrypting an encryptField output with a different code
fails (throws, modelled as none) whenever the CBC decryption under the key
derived from that code does not end in valid PKCS#7 padding.  (When the
garbage decryption happens to end in valid padding, decryptField silently
returns it; aes-256-cbc carries no integrity check.) -/
theorem decryptField_wrongCode_of_bad_padding (C : BlockCipher)
    (kdf : List Char → List Byte) (value : List Byte) (code wrong : List Char)
    (iv : List Byte) (hiv : iv.length = 16)
    (hbad : pkcs7unpad ((cbcDecBlocks C (kdf wrong) iv
        (cbcEncBlocks C (kdf code) iv (toBlocks (pkcs7pad value)))).flatten) = none) :
    decryptField C kdf (encryptField C kdf value code iv) wrong = none := by
  rw [decryptField_encryptField_eq C kdf value code wrong iv hiv, hbad]

/-- C8: two encryptField calls that draw different IVs produce different
ciphertext strings (the IV is embedded in hex in front of the separator). -/
theorem encryptField_iv_injective (C : BlockCipher) (kdf : List Char → List Byte)
    (value : List Byte) (code : List Char) (iv1 iv2 : List Byte)
    (hne : iv1 ≠ iv2) :
    encryptField C kdf value code iv1 ≠ encryptField C kdf value code iv2 := by
  intro heq
  apply hne
  have h3 : splitColon (encryptField C kdf value code iv1)
      = hexOfBytes iv1 :: splitColon (hexOfBytes
          ((cbcEncBlocks C (kdf code) iv1 (toBlocks (pkcs7pad value))).flatten)) :=
    splitColon_append _ _ (colon_not_mem_hexOfBytes iv1)
  have h4 : splitColon (encryptField C kdf value code iv2)
      = hexOfBytes iv2 :: splitColon (hexOfBytes
          ((cbcEncBlocks C (kdf code) iv2 (toBlocks (pkcs7pad value))).flatten)) :=
    splitColon_append _ _ (colon_not_mem_hexOfBytes iv2)
  rw [heq, h4] at h3
  have h5 : hexOfBytes iv2 = hexOfBytes iv1 := by
    injection h3
  calc iv1 = bytesOfHex (hexOfBytes iv1) := (bytesOfHex_hexOfBytes iv1).symm
    _ = bytesOfHex (hexOfBytes iv2) := by rw [h5]
    _ = iv2 := bytesOfHex_hexOfBytes iv2

/-- Witness for C1 at a concrete cipher, code, value, and IV. -/
theorem decryptField_encryptField_witness :
    decryptField xorCipher charKdf
      (encryptField xorCipher charKdf [(5 : Byte)] ['a'] (List.replicate 16 (0 : Byte)))
      ['a'] = some [(5 : Byte)] :=
  decryptField_encryptField xorCipher charKdf [(5 : Byte)] ['a']
    (List.replicate 16 (0 : Byte)) (by decide)

/-- C6 counterexample: with a concrete instance of the block-cipher interface,
decrypting a sealed value with a wrong code does not fail; it silently returns
a plaintext different from the sealed value (the garbage CBC decryption happens
to end in valid PKCS#7 padding, which aes-256-cbc cannot detect). -/
theorem decryptField_wrongCode_cex :
    (['b'] : List Char) ≠ ['c'] ∧
    decryptField xorCipher charKdf
      (encryptField xorCipher charKdf (List.replicate 15 (0 : Byte)) ['b']
        (List.replicate 16 (0 : Byte))) ['c']
      = some ((1 : Byte) :: List.replicate 14 (0 : Byte)) ∧
    ((1 : Byte) :: List.replicate 14 (0 : Byte)) ≠ List.replicate 15 (0 : Byte) := by
  decide

/-- Witness for the amended C6 at a concrete wrong code whose garbage
decryption has invalid padding. -/
theorem decryptField_wrongCode_witness :
    decryptField xorCipher charKdf
      (encryptField xorCipher charKdf (List.replicate 15 (0 : Byte))
        (List.replicate 16 'b') (List.replicate 16 (0 : Byte)))
      (List.replicate 15 'b' ++ ['c']) = none :=
  decryptField_wrongCode_of_bad_padding xorCipher charKdf
    (List.replicate 15 (0 : Byte)) (List.replicate 16 'b')
    (List.replicate 15 'b' ++ ['c']) (List.replicate 16 (0 : Byte))
    (by decide) (by decide)

/-- Witness for C8 at two concrete distinct IVs. -/
theorem encryptField_iv_injective_witness :
    encryptField xorCipher charKdf [(5 : Byte)] ['a'] (List.replicate 16 (0 : Byte))
      ≠ encryptField xorCipher charKdf [(5 : Byte)] ['a']
          ((1 : Byte) :: List.replicate 15 (0 : Byte)) :=
  encryptField_iv_injective xorCipher charKdf [(5 : Byte)] ['a']
    (List.replicate 16 (0 : Byte)) ((1 : Byte) :: List.replicate 15 (0 : Byte))
    (by decide)

/-!
Part 2 embeds the five HTTP route handlers:
  src/app/api/register/route.ts   POST
  src/app/api/resolve/route.ts    POST
  src/app/api/attach/route.ts     POST
  src/app/api/finalize/route.ts   POST
  src/app/api/status/[code]/route.ts GET
together with the error envelope of src/utils/error.ts and the zod response
schemas of src/schemas.

Each handler is embedded as a pure function of the values it branches on:
timestamps are Int milliseconds (Date.now()), the configured code lifetime
protocol.getConfig().codeTTL is the ttl parameter (milliseconds), and the
record store interaction is summarized by a parameter describing what
redis.get followed by decryptField and parsing produced for the derived key.
External steps that can only succeed or throw (request.json(), zod request
parsing, the chain adapter, the protocol library constructors, redis.set)
are Boolean parameters.  The response carries the HTTP transport status, a
body, and the ttlSeconds (the ex option, in seconds, possibly fractional)
of the store write the handler performed, if any.

JS truthiness drives several branches, so optional string fields model the
empty string explicitly, and optional numeric fields model 0 explicitly.
-/

/-- The error codes of src/utils/error.ts. -/
inductive ErrCode
  | INVALID_PAYLOAD
  | SIGNATURE_INVALID
  | CODE_EXPIRED
  | DUPLICATE_CODE
  | CODE_NOT_FOUND
  | TX_ALREADY_ATTACHED
  | TX_MISSING
  | UNSUPPORTED_CHAIN
  | ADAPTER_NOT_FOUND
  | INVALID_INTENT_TYPE
  | UNKNOWN_ERROR
deriving DecidableEq

/-- The JSON envelope produced by ActionCodesRelayerError.toJSON:
error is the literal true, status the constructor status (default 400),
details present only when supplied. -/
structure ErrorEnvelope where
  error : Bool
  code : ErrCode
  message : String
  status : Nat
  details : Option String
deriving DecidableEq

/-- ActionCodesRelayerError construction followed by toJSON. -/
def mkErr (c : ErrCode) (m : String) (st : Nat) (d : Option String) : ErrorEnvelope :=
  { error := true, code := c, message := m, status := st, details := d }

/-- A JSON scalar value, as far as the response schemas inspect one. -/
inductive JVal
  | s (v : String)
  | i (v : Int)
  | b (v : Bool)
deriving DecidableEq

/-- A JSON object: ordered key/value pairs. -/
abbrev JObj := List (String × JVal)

/-- Field lookup in a JSON object. -/
def jget (o : JObj) (k : String) : Option JVal :=
  match o with
  | [] => none
  | (k2, v) :: rest => if k2 = k then some v else jget rest k

/-- Zod z.string() on a required field. -/
def reqStr (o : JObj) (k : String) : Bool :=
  match jget o k with
  | some (.s _) => true
  | _ => false

/-- Zod z.boolean() on a required field. -/
def reqBool (o : JObj) (k : String) : Bool :=
  match jget o k with
  | some (.b _) => true
  | _ => false

/-- Zod z.number().int().positive() on a required field. -/
def reqPosInt (o : JObj) (k : String) : Bool :=
  match jget o k with
  | some (.i v) => decide (0 < v)
  | _ => false

/-- Zod z.number().int().min(0) on a required field. -/
def reqNonnegInt (o : JObj) (k : String) : Bool :=
  match jget o k with
  | some (.i v) => decide (0 ≤ v)
  | _ => false

/-- Zod z.string().optional(): absent or a string. -/
def optStr (o : JObj) (k : String) : Bool :=
  match jget o k with
  | some (.s _) => true
  | some _ => false
  | none => true

/-- Zod z.enum on a required string field. -/
def strEnum (o : JObj) (k : String) (vals : List String) : Bool :=
  match jget o k with
  | some (.s v) => vals.contains v
  | _ => false

/-- Zod z.literal on a required string field. -/
def strLit (o : JObj) (k : String) (v : String) : Bool :=
  match jget o k with
  | some (.s w) => w = v
  | _ => false

/-- ResolveResponseSchema of src/schemas/resolve.ts (scalar fields; the
optional nested meta and transaction objects always match their schemas in
this model and are omitted from the flat object). -/
def resolveResponseSchemaOk (o : JObj) : Bool :=
  reqStr o "codeHash" && reqPosInt o "issuedAt" && reqPosInt o "expiresAt" &&
  reqNonnegInt o "remainingInSeconds" &&
  strEnum o "status" ["pending", "active", "expired", "finalized", "error"] &&
  reqStr o "pubkey" && reqStr o "chain"

/-- RegisterResponseSchema of src/schemas/register.ts. -/
def registerResponseSchemaOk (o : JObj) : Bool :=
  reqStr o "codeHash" && reqPosInt o "issuedAt" && reqPosInt o "expiresAt" &&
  reqPosInt o "remainingInSeconds" &&
  strEnum o "status" ["pending", "active", "expired", "finalized", "error"]

/-- AttachResponseSchema of src/schemas/attach.ts; note that hasTransaction
and hasMessage are both required booleans. -/
def attachResponseSchemaOk (o : JObj) : Bool :=
  strLit o "status" "success" && reqStr o "codeHash" && reqPosInt o "expiresAt" &&
  reqStr o "chain" && strLit o "actionCodeStatus" "resolved" &&
  reqBool o "hasTransaction" && reqBool o "hasMessage"

/-- FinalizeResponseSchema of src/schemas/finalize.ts. -/
def finalizeResponseSchemaOk (o : JObj) : Bool :=
  strLit o "status" "success" && reqStr o "finalizedSignature" && reqPosInt o "expiresAt"

/-- StatusResponseSchema of src/schemas/status.ts; hasTransaction and
hasMessage are required booleans. -/
def statusResponseSchemaOk (o : JObj) : Bool :=
  strEnum o "status" ["pending", "resolved", "finalized"] &&
  reqPosInt o "expiresAt" && reqBool o "hasTransaction" && reqBool o "hasMessage" &&
  optStr o "signedMessage" && optStr o "finalizedSignature"

/-- The nested transaction value of a decrypted ActionCode record.  Fields are
optional strings; none models an absent (undefined) field, some "" an empty
string (falsy in JS). -/
structure TxInfo where
  transaction : Option String
  txSignature : Option String
  message : Option String
  signedMessage : Option String
deriving DecidableEq

/-- The fields of a decrypted ActionCode record that the route handlers
branch on.  timestamp is optional (and may be the falsy 0); transaction is an
optional nested object (any present object, even empty, is truthy in JS). -/
structure ActionCodeRec where
  timestamp : Option Int
  pubkey : Option String
  chain : Option String
  transaction : Option TxInfo
deriving DecidableEq

/-- JS truthiness of an optional string: present and nonempty. -/
def strTruthy : Option String → Bool
  | some v => v != ""
  | none => false

/-- JS expression (x || dflt) on an optional numeric field: 0 and undefined
are falsy. -/
def jsOrNum (x : Option Int) (dflt : Int) : Int :=
  match x with
  | some v => if v = 0 then dflt else v
  | none => dflt

/-- Outcome of redis.get followed by decryptField and record parsing:
fail models a throw of decryptField or of the parser, nonObject a parsed
value that is null or not an object. -/
inductive Decoded
  | fail
  | nonObject
  | ok (r : ActionCodeRec)
deriving DecidableEq

/-- A route response body: the uniform error envelope, a schema-validated
JSON object, or the distinct error shape of StatusErrorResponseSchema
(an error message string together with the literal status "error"). -/
inductive RouteBody
  | envelope (e : ErrorEnvelope)
  | json (o : JObj)
  | statusErr (error : String) (status : String)
deriving DecidableEq

/-- A route outcome: HTTP transport status, body, and the ttl in seconds
(the ex option, possibly fractional) of the redis.set the handler performed,
if any. -/
structure RouteResponse where
  http : Nat
  body : RouteBody
  writeTTL : Option ℚ
deriving DecidableEq

/-- Shorthand for an envelope-only response whose transport status matches
the envelope status. -/
def errResp (c : ErrCode) (m : String) (st : Nat) (d : Option String) : RouteResponse :=
  ⟨st, .envelope (mkErr c m st d), none⟩

/-- POST of src/app/api/resolve/route.ts.
jsonOk: request.json() succeeded; schemaOk: ResolveRequestSchema.parse
succeeded; fetched: what redis.get plus decryptField plus JSON.parse produced
for the key derived from the code; now: Date.now(); ttl: the configured
codeTTL in milliseconds.  The response object is validated against
ResolveResponseSchema; a validation failure surfaces as the ZodError branch
of the outer catch.  Resolve never writes to the store. -/
def resolvePOST (jsonOk schemaOk : Bool) (fetched : Option Decoded)
    (now ttl : Int) : RouteResponse :=
  if !jsonOk then
    errResp .INVALID_PAYLOAD "Invalid JSON in request body" 400
      (some "Request body must be valid JSON")
  else if !schemaOk then
    errResp .INVALID_PAYLOAD "Invalid request payload" 400 (some "ZodError")
  else
    match fetched with
    | none => errResp .CODE_NOT_FOUND "Code not found or expired" 404 none
    | some .fail => errResp .INVALID_PAYLOAD "Invalid code provided for decryption" 400 none
    | some .nonObject => errResp .INVALID_PAYLOAD "Invalid action code format" 400 none
    | some (.ok r) =>
      let issuedAt := jsOrNum r.timestamp now
      let expiresAt := issuedAt + ttl
      let remainingTime := max 0 (expiresAt - now)
      let remainingInSeconds := remainingTime / 1000
      let status : String := if remainingTime ≤ 0 then "expired" else "active"
      let respObj : JObj :=
        [("codeHash", .s "sha256-of-code"),
         ("issuedAt", .i issuedAt), ("expiresAt", .i expiresAt),
         ("remainingInSeconds", .i remainingInSeconds), ("status", .s status)]
        ++ (match r.pubkey with | some p => [("pubkey", JVal.s p)] | none => [])
        ++ (match r.chain with | some c => [("chain", JVal.s c)] | none => [])
      if resolveResponseSchemaOk respObj then ⟨200, .json respObj, none⟩
      else errResp .INVALID_PAYLOAD "Invalid request payload" 400 (some "ZodError")

/-- POST of src/app/api/attach/route.ts.
reqChain: the chain field of the parsed request; chainSupported and
adapterFound: protocol.isChainSupported and protocol.getChainAdapter;
extOk: the external steps of the inner try (ActionCode.fromPayload,
protocol.attachTransaction, adapter.signWithProtocolKey, encryptField,
redis.set) succeeded; now: the Date.now() of the expiry check; now2: the
Date.now() of the write TTL computation (a later call in the source).
On the success path, the write happens with
ex = (codeTTL - (now2 - timestamp)) / 1000 seconds before the response
object is built; the object lacks the hasMessage boolean required by
AttachResponseSchema, so its parse throws inside the inner try and the
handler answers with the inner-catch envelope. -/
def attachPOST (jsonOk schemaOk : Bool) (fetched : Option Decoded)
    (now ttl : Int) (reqChain : String) (chainSupported adapterFound : Bool)
    (extOk : Bool) (now2 : Int) : RouteResponse :=
  if !jsonOk then
    errResp .INVALID_PAYLOAD "Invalid JSON in request body" 400
      (some "Request body must be valid JSON")
  else if !schemaOk then
    errResp .INVALID_PAYLOAD "Invalid request payload" 400 (some "ZodError")
  else
    match fetched with
    | none => errResp .CODE_NOT_FOUND "Code not found or expired" 404 none
    | some .fail => errResp .INVALID_PAYLOAD "Invalid code provided for decryption" 400 none
    | some .nonObject => errResp .INVALID_PAYLOAD "Invalid action code format" 400 none
    | some (.ok r) =>
      let issuedAt := jsOrNum r.timestamp now
      let expiresAt := issuedAt + ttl
      let remainingTime := max 0 (expiresAt - now)
      if remainingTime ≤ 0 then
        errResp .CODE_EXPIRED "Action code has expired" 410 none
      else if r.transaction.isSome then
        errResp .TX_ALREADY_ATTACHED "Transaction already attached to this code" 409 none
      else if !chainSupported then
        errResp .UNSUPPORTED_CHAIN ("Chain " ++ reqChain ++ " is not supported") 400 none
      else if !adapterFound then
        errResp .ADAPTER_NOT_FOUND ("Adapter for " ++ reqChain ++ " not found") 400 none
      else if extOk then
        let remainingTTL : ℚ := (ttl : ℚ) - ((now2 : ℚ) - (issuedAt : ℚ))
        let respObj : JObj :=
          [("status", .s "success"), ("codeHash", .s "sha256-of-code"),
           ("expiresAt", .i expiresAt), ("chain", .s reqChain),
           ("actionCodeStatus", .s "resolved"), ("hasTransaction", .b true)]
        if attachResponseSchemaOk respObj then
          ⟨200, .json respObj, some (remainingTTL / 1000)⟩
        else
          ⟨400, .envelope (mkErr .INVALID_PAYLOAD
            "Cant attach transaction to action code." 400 none),
           some (remainingTTL / 1000)⟩
      else
        errResp .INVALID_PAYLOAD "Cant attach transaction to action code." 400 none

/-- POST of src/app/api/register/route.ts.
codeValid: CodeGenerator.validateCode; constructOk: ActionCode.fromPayload
succeeded and protocol.validateActionCode accepted (the inner catch replaces
any failure of either with the same envelope); setOk: redis.set succeeded;
remainingTimeExt: the externally computed actionCode.remainingTime (ms).
The write uses ex = protocol.getConfig().codeTTL, i.e. the millisecond
lifetime value passed where the store expects seconds.  The fromPayload of
the protocol library preserves the request timestamp and returns status
pending.  A response-schema failure is thrown inside the inner try, after
the write, and surfaces as the same inner-catch envelope. -/
def registerPOST (jsonOk schemaOk : Bool) (reqChain : String)
    (chainSupported adapterFound codeValid : Bool)
    (timestamp ttl : Int) (constructOk setOk : Bool)
    (remainingTimeExt : Int) : RouteResponse :=
  if !jsonOk then
    errResp .INVALID_PAYLOAD "Invalid JSON in request body" 400
      (some "Request body must be valid JSON")
  else if !schemaOk then
    errResp .INVALID_PAYLOAD "Invalid request payload" 400 (some "ZodError")
  else if !chainSupported then
    errResp .UNSUPPORTED_CHAIN ("Chain " ++ reqChain ++ " is not supported") 400 none
  else if !adapterFound then
    errResp .ADAPTER_NOT_FOUND ("Adapter for " ++ reqChain ++ " not found") 400 none
  else if !codeValid then
    errResp .INVALID_PAYLOAD "Invalid code" 400 none
  else if constructOk then
    if setOk then
      let respObj : JObj :=
        [("codeHash", .s "sha256-of-code"),
         ("issuedAt", .i timestamp), ("expiresAt", .i (timestamp + ttl)),
         ("remainingInSeconds", .i (Int.fdiv remainingTimeExt 1000)),
         ("status", .s "pending")]
      if registerResponseSchemaOk respObj then
        ⟨200, .json respObj, some (ttl : ℚ)⟩
      else
        ⟨400, .envelope (mkErr .INVALID_PAYLOAD
          "Cant construct or validate action code." 400 none), some (ttl : ℚ)⟩
    else
      errResp .INVALID_PAYLOAD "Cant construct or validate action code." 400 none
  else
    errResp .INVALID_PAYLOAD "Cant construct or validate action code." 400 none

/-- The commit tail of finalize (steps 8 to 10 of the source): stamp the
proof, re-encrypt, write back with ex = protocol.getConfig().codeTTL / 1000
seconds (the full configured lifetime, per the source comment, to allow
resolve for finalized), then build the response.  extOk: the external steps
(ActionCode.fromPayload, encryptField, redis.set) succeeded; their failure is
not caught locally and surfaces as the outer-catch UNKNOWN_ERROR envelope. -/
def finalizeCommit (signature : String) (expiresAt : Int) (ttl : Int)
    (extOk : Bool) : RouteResponse :=
  if extOk then
    let respObj : JObj :=
      [("status", .s "success"), ("finalizedSignature", .s signature),
       ("expiresAt", .i expiresAt)]
    if finalizeResponseSchemaOk respObj then
      ⟨200, .json respObj, some ((ttl : ℚ) / 1000)⟩
    else
      ⟨400, .envelope (mkErr .INVALID_PAYLOAD "Invalid request payload" 400
        (some "ZodError")), some ((ttl : ℚ) / 1000)⟩
  else
    ⟨500, .envelope (mkErr .UNKNOWN_ERROR "Unknown error" 500 none), none⟩

/-- Step 7 of the finalize route, the chain === solana verification block.
signature: the signature field of the parsed request (FinalizeRequestSchema
requires it and has no signedMessage field, so the destructured signedMessage
is always undefined and the sign-only branches are dead); throwDuringVerify:
an await inside the verification try threw (caught as SIGNATURE_INVALID);
txFound: solanaConnection.getTransaction returned a transaction; verifyOk:
adapter.verifyFinalizedTransaction; txFailedOnChain: transaction.meta.err
was set.  On success, continues with finalizeCommit. -/
def finalizeVerify (signature : String)
    (throwDuringVerify txFound verifyOk txFailedOnChain msgValid : Bool)
    (expiresAt ttl : Int) (extOk : Bool) : RouteResponse :=
  let signedMessage : Option String := none
  if signature != "" then
    if throwDuringVerify then
      errResp .SIGNATURE_INVALID "Failed to verify transaction signature" 400 none
    else if !txFound then
      errResp .SIGNATURE_INVALID "Transaction not found on blockchain" 400 none
    else if !verifyOk then
      errResp .SIGNATURE_INVALID "Transaction is not valid for this action code" 400 none
    else if txFailedOnChain then
      errResp .SIGNATURE_INVALID "Transaction failed on blockchain" 400 none
    else finalizeCommit signature expiresAt ttl extOk
  else if strTruthy signedMessage then
    if throwDuringVerify then
      errResp .SIGNATURE_INVALID "Failed to verify transaction signature" 400 none
    else if !msgValid then
      errResp .SIGNATURE_INVALID "Message signature is invalid" 400 none
    else finalizeCommit signature expiresAt ttl extOk
  else
    errResp .INVALID_PAYLOAD "Transaction signature or signed message is required" 400 none

/-- POST of src/app/api/finalize/route.ts.  The expiry guard of step 3 is
(now > expiresAt); steps 4 and 5 check the attached transaction and the
already-finalized condition; step 6 requires the chain field; step 7 is
finalizeVerify, steps 8 to 10 finalizeCommit. -/
def finalizePOST (jsonOk schemaOk : Bool) (signature : String)
    (fetched : Option Decoded) (now ttl : Int)
    (throwDuringVerify txFound verifyOk txFailedOnChain msgValid : Bool)
    (extOk : Bool) : RouteResponse :=
  if !jsonOk then
    errResp .INVALID_PAYLOAD "Invalid JSON in request body" 400
      (some "Request body must be valid JSON")
  else if !schemaOk then
    errResp .INVALID_PAYLOAD "Invalid request payload" 400 (some "ZodError")
  else
    match fetched with
    | none => errResp .CODE_NOT_FOUND "Code not found or expired" 404 none
    | some .fail => errResp .INVALID_PAYLOAD "Invalid code provided for decryption" 400 none
    | some .nonObject => errResp .INVALID_PAYLOAD "Invalid action code format" 400 none
    | some (.ok r) =>
      let timestamp := jsOrNum r.timestamp now
      let expiresAt := timestamp + ttl
      if expiresAt < now then
        errResp .CODE_EXPIRED "Action code has expired" 410 none
      else if !(match r.transaction with
                | none => false
                | some tx => strTruthy tx.transaction || strTruthy tx.message) then
        errResp .TX_MISSING "No transaction attached to this action code" 400 none
      else if (match r.transaction with
               | some tx => strTruthy tx.txSignature
               | none => false) then
        errResp .TX_ALREADY_ATTACHED "Action code is already finalized" 409 none
      else if !(strTruthy r.chain) then
        errResp .INVALID_PAYLOAD "Action code missing chain information" 400 none
      else if r.chain = some "solana" then
        finalizeVerify signature throwDuringVerify txFound verifyOk txFailedOnChain
          msgValid expiresAt ttl extOk
      else
        errResp .UNSUPPORTED_CHAIN
          ("Chain is not supported for finalization") 400 none

/-- GET of src/app/api/status/[code]/route.ts.
All error paths answer with the StatusErrorResponseSchema shape, not with
the uniform envelope.  The success object carries status, expiresAt,
hasTransaction, and finalizedSignature, but not the hasMessage boolean that
StatusResponseSchema requires, so its parse always throws a ZodError which
the outer catch converts to the invalid-code-format error shape.
Status never writes to the store. -/
def statusGET (schemaOk : Bool) (fetched : Option Decoded)
    (now ttl : Int) : RouteResponse :=
  if !schemaOk then
    ⟨400, .statusErr "Invalid code format" "error", none⟩
  else
    match fetched with
    | none => ⟨404, .statusErr "Code not found or expired" "error", none⟩
    | some .fail => ⟨400, .statusErr "Invalid code provided" "error", none⟩
    | some .nonObject => ⟨400, .statusErr "Invalid action code format" "error", none⟩
    | some (.ok r) =>
      let issuedAt := jsOrNum r.timestamp now
      let expiresAt := issuedAt + ttl
      let status : String :=
        if (match r.transaction with
            | some tx => strTruthy tx.txSignature
            | none => false) then "finalized"
        else if (match r.transaction with
                 | some tx => strTruthy tx.transaction
                 | none => false) then "resolved"
        else "pending"
      let hasTransaction : Bool :=
        match r.transaction with
        | some tx => strTruthy tx.transaction
        | none => false
      let respObj : JObj :=
        [("status", .s status), ("expiresAt", .i expiresAt),
         ("hasTransaction", .b hasTransaction)]
        ++ (match r.transaction with
            | some tx =>
              match tx.txSignature with
              | some sig => [("finalizedSignature", JVal.s sig)]
              | none => []
            | none => [])
      if statusResponseSchemaOk respObj then ⟨200, .json respObj, none⟩
      else ⟨400, .statusErr "Invalid code format" "error", none⟩

/-- The error code carried by a response, when its body is the envelope. -/
def errCodeOf (resp : RouteResponse) : Option ErrCode :=
  match resp.body with
  | .envelope e => some e.code
  | _ => none

/-- The verification block never answers CODE_EXPIRED. -/
theorem finalizeVerify_no_expired (signature : String)
    (f1 f2 f3 f4 f5 : Bool) (expiresAt ttl : Int) (extOk : Bool) :
    errCodeOf (finalizeVerify signature f1 f2 f3 f4 f5 expiresAt ttl extOk)
      ≠ some .CODE_EXPIRED := by
  simp only [finalizeVerify, finalizeCommit]
  repeat' split
  all_goals simp [errCodeOf, errResp, mkErr]

/-- jsOrNum keeps a truthy numeric field. -/
theorem jsOrNum_some_ne (ts now : Int) (h : ts ≠ 0) : jsOrNum (some ts) now = ts := by
  simp [jsOrNum, h]

/-- jsOrNum substitutes the default for a falsy (absent or zero) field. -/
theorem jsOrNum_falsy (x : Option Int) (now : Int) (h : x = none ∨ x = some 0) :
    jsOrNum x now = now := by
  rcases h with h | h <;> simp [jsOrNum, h]

/-- The resolve response object passes ResolveResponseSchema whenever the
numeric fields are in range (pubkey and chain being present as strings). -/
theorem resolveSchemaOk_concrete (ts e rem : Int) (st p c : String)
    (h1 : 0 < ts) (h2 : 0 < e) (h3 : 0 ≤ rem)
    (h4 : (["pending", "active", "expired", "finalized", "error"] : List String).contains st = true) :
    resolveResponseSchemaOk
      [("codeHash", .s "sha256-of-code"), ("issuedAt", .i ts), ("expiresAt", .i e),
       ("remainingInSeconds", .i rem), ("status", .s st), ("pubkey", .s p),
       ("chain", .s c)] = true := by
  have h5 : st = "pending" ∨ st = "active" ∨ st = "expired" ∨ st = "finalized"
      ∨ st = "error" := by
    simpa using h4
  simp [resolveResponseSchemaOk, reqStr, reqPosInt, reqNonnegInt, strEnum, jget,
    h1, h2, h3, h5]

/-- C2 counterexample: at now exactly equal to expiresAt (record timestamp 1,
codeTTL 120000, now 120001 = 1 + 120000), Finalize does not reject with
CODE_EXPIRED: its guard is (now > expiresAt), so the call proceeds and
succeeds, writing back with the full lifetime TTL. -/
theorem finalize_at_exact_expiry_cex :
    (120001 : Int) = 1 + 120000 ∧
    (finalizePOST true true "S"
      (some (.ok ⟨some 1, some "P", some "solana",
        some ⟨some "T", none, none, none⟩⟩)) 120001 120000
      false true true false true true).http = 200 ∧
    errCodeOf (finalizePOST true true "S"
      (some (.ok ⟨some 1, some "P", some "solana",
        some ⟨some "T", none, none, none⟩⟩)) 120001 120000
      false true true false true true) = none := by
  refine ⟨by decide, ?_, ?_⟩ <;> decide

/-- C2 (amended): at now == expiresAt, Resolve reports status expired with
remainingInSeconds 0 and Attach rejects with CODE_EXPIRED, but Finalize
treats the code as not yet expired: it rejects with CODE_EXPIRED only when
now > expiresAt, so no Finalize outcome at now ≤ expiresAt is CODE_EXPIRED. -/
theorem expiry_boundary_amended (r : ActionCodeRec) (ts ttl : Int) (p c : String)
    (hts : r.timestamp = some ts) (hts0 : ts ≠ 0)
    (hp : r.pubkey = some p) (hc : r.chain = some c)
    (hpos : 0 < ts) (hpos2 : 0 < ts + ttl) :
    resolvePOST true true (some (.ok r)) (ts + ttl) ttl
      = ⟨200, .json [("codeHash", .s "sha256-of-code"), ("issuedAt", .i ts),
          ("expiresAt", .i (ts + ttl)), ("remainingInSeconds", .i 0),
          ("status", .s "expired"), ("pubkey", .s p), ("chain", .s c)], none⟩ ∧
    (∀ (reqChain : String) (cs af eo : Bool) (n2 : Int),
      attachPOST true true (some (.ok r)) (ts + ttl) ttl reqChain cs af eo n2
        = errResp .CODE_EXPIRED "Action code has expired" 410 none) ∧
    (∀ (sig : String) (f1 f2 f3 f4 f5 f6 : Bool) (now : Int), now ≤ ts + ttl →
      errCodeOf (finalizePOST true true sig (some (.ok r)) now ttl f1 f2 f3 f4 f5 f6)
        ≠ some .CODE_EXPIRED) := by
  refine ⟨?_, ?_, ?_⟩
  · have hj : jsOrNum r.timestamp (ts + ttl) = ts := by
      rw [hts]; exact jsOrNum_some_ne ts _ hts0
    have hrem : max 0 (ts + ttl - (ts + ttl)) = (0 : Int) := by omega
    have hsch := resolveSchemaOk_concrete ts (ts + ttl) 0 "expired" p c hpos hpos2
      (by omega) (by decide)
    simp only [resolvePOST, Bool.not_true, Bool.false_eq_true, if_false, hj, hrem,
      hp, hc]
    norm_num [hsch]
  · intro reqChain cs af eo n2
    have hj : jsOrNum r.timestamp (ts + ttl) = ts := by
      rw [hts]; exact jsOrNum_some_ne ts _ hts0
    have hrem : max 0 (ts + ttl - (ts + ttl)) = (0 : Int) := by omega
    simp only [attachPOST, Bool.not_true, Bool.false_eq_true, if_false, hj, hrem]
    norm_num
  · intro sig f1 f2 f3 f4 f5 f6 now hle
    have hj : jsOrNum r.timestamp now = ts := by
      rw [hts]; exact jsOrNum_some_ne ts _ hts0
    intro hcon
    simp only [finalizePOST, Bool.not_true, Bool.false_eq_true, if_false, hj] at hcon
    rw [if_neg (by omega : ¬(ts + ttl < now))] at hcon
    repeat' split at hcon
    all_goals
      first
      | exact finalizeVerify_no_expired _ _ _ _ _ _ _ _ _ hcon
      | simp [errCodeOf, errResp, mkErr] at hcon

/-- Witness for the amended C2 at a concrete record and boundary instant. -/
theorem expiry_boundary_amended_witness :
    resolvePOST true true (some (.ok ⟨some 1, some "P", some "solana", none⟩))
      (1 + 120000) 120000
      = ⟨200, .json [("codeHash", .s "sha256-of-code"), ("issuedAt", .i 1),
          ("expiresAt", .i (1 + 120000)), ("remainingInSeconds", .i 0),
          ("status", .s "expired"), ("pubkey", .s "P"), ("chain", .s "solana")], none⟩ ∧
    attachPOST true true (some (.ok ⟨some 1, some "P", some "solana", none⟩))
      (1 + 120000) 120000 "solana" true true true (1 + 120000)
      = errResp .CODE_EXPIRED "Action code has expired" 410 none ∧
    errCodeOf (finalizePOST true true "S"
      (some (.ok ⟨some 1, some "P", some "solana", none⟩)) (1 + 120000) 120000
      false true true false true true) ≠ some .CODE_EXPIRED := by
  have h := expiry_boundary_amended ⟨some 1, some "P", some "solana", none⟩ 1 120000
    "P" "solana" rfl (by decide) rfl rfl (by decide) (by decide)
  exact ⟨h.1, h.2.1 "solana" true true true (1 + 120000),
    h.2.2 "S" false true true false true true (1 + 120000) (by decide)⟩

/-- C3 counterexample: a Finalize at now = 60001 on a record registered at
timestamp 1 with codeTTL 120000 writes back with ex = 120 seconds (the full
configured lifetime), not the 60 seconds remaining until the logical expiry
anchored at the original timestamp, so the physical retention extends past
the deadline. -/
theorem finalize_write_ttl_cex :
    (finalizePOST true true "S"
      (some (.ok ⟨some 1, some "P", some "solana",
        some ⟨some "T", none, none, none⟩⟩)) 60001 120000
      false true true false true true).writeTTL
      = some (((120000 : Int) : ℚ) / 1000) ∧
    (((120000 : Int) : ℚ) / 1000) ≠ (((1 : Int) : ℚ) + 120000 - 60001) / 1000 := by
  constructor
  · rfl
  · norm_num

/-- The attach response object always fails AttachResponseSchema: it lacks
the required hasMessage boolean. -/
theorem attachResponseSchemaOk_false (e : Int) (ch : String) :
    attachResponseSchemaOk
      [("status", .s "success"), ("codeHash", .s "sha256-of-code"),
       ("expiresAt", .i e), ("chain", .s ch),
       ("actionCodeStatus", .s "resolved"), ("hasTransaction", .b true)] = false := by
  simp [attachResponseSchemaOk, strLit, reqStr, reqPosInt, reqBool, jget]

/-- C3 (amended): only Attach anchors the written TTL at the original
timestamp (ex = (codeTTL - (now2 - timestamp)) / 1000 seconds, the exact
remaining lifetime); Register writes with ex equal to the configured codeTTL
millisecond value itself, and Finalize writes back with ex = codeTTL / 1000,
the full configured lifetime in seconds regardless of the elapsed time, so
Register and Finalize extend the physical retention beyond the logical
expiry deadline. -/
theorem write_ttl_amended :
    (∀ (r : ActionCodeRec) (ts now ttl now2 : Int) (ch : String),
      r.timestamp = some ts → ts ≠ 0 → now < ts + ttl → r.transaction = none →
      (attachPOST true true (some (.ok r)) now ttl ch true true true now2).writeTTL
        = some (((ts : ℚ) + (ttl : ℚ) - (now2 : ℚ)) / 1000)) ∧
    (∀ (ch : String) (ts ttl rem : Int),
      (registerPOST true true ch true true true ts ttl true true rem).writeTTL
        = some ((ttl : Int) : ℚ)) ∧
    (∀ (r : ActionCodeRec) (ts now ttl : Int) (sig : String) (tx : TxInfo),
      r.timestamp = some ts → ts ≠ 0 → now ≤ ts + ttl →
      r.transaction = some tx → strTruthy tx.transaction = true →
      tx.txSignature = none → r.chain = some "solana" → sig ≠ "" →
      (finalizePOST true true sig (some (.ok r)) now ttl
        false true true false true true).writeTTL = some (((ttl : Int) : ℚ) / 1000)) := by
  refine ⟨?_, ?_, ?_⟩
  · intro r ts now ttl now2 ch hts hts0 hlive htx
    have hj : jsOrNum r.timestamp now = ts := by
      rw [hts]; exact jsOrNum_some_ne ts _ hts0
    simp only [attachPOST, Bool.not_true, Bool.false_eq_true, if_false, hj, htx]
    rw [if_neg (by omega : ¬(max 0 (ts + ttl - now) ≤ 0))]
    simp only [Option.isSome_none, Bool.false_eq_true, if_false, Bool.not_true,
      if_true, attachResponseSchemaOk_false]
    norm_num
    ring
  · intro ch ts ttl rem
    simp only [registerPOST, Bool.not_true, Bool.false_eq_true, if_false, if_true]
    split <;> rfl
  · intro r ts now ttl sig tx hts hts0 hle htx htr hsig hch hsg
    have hj : jsOrNum r.timestamp now = ts := by
      rw [hts]; exact jsOrNum_some_ne ts _ hts0
    simp only [finalizePOST, Bool.not_true, Bool.false_eq_true, if_false, hj, htx,
      htr, hsig, hch]
    rw [if_neg (by omega : ¬(ts + ttl < now))]
    simp only [strTruthy, Bool.true_or, Bool.not_true, Bool.false_eq_true, if_false]
    have hbne : (sig != "") = true := by simp [hsg]
    simp only [finalizeVerify, finalizeCommit, hbne, eq_self_iff_true, if_true,
      Bool.not_true, Bool.false_eq_true, if_false]
    repeat' split
    all_goals first | rfl | simp_all

/-- Witness for the amended C3 at concrete records and instants. -/
theorem write_ttl_amended_witness :
    (attachPOST true true (some (.ok ⟨some 500, some "P", some "solana", none⟩))
      1000 120000 "solana" true true true 1000).writeTTL
      = some ((((500 : Int) : ℚ) + ((120000 : Int) : ℚ) - ((1000 : Int) : ℚ)) / 1000) ∧
    (registerPOST true true "solana" true true true 1 120000 true true 120000).writeTTL
      = some ((120000 : Int) : ℚ) ∧
    (finalizePOST true true "S"
      (some (.ok ⟨some 1, some "P", some "solana",
        some ⟨some "T", none, none, none⟩⟩)) 60001 120000
      false true true false true true).writeTTL = some (((120000 : Int) : ℚ) / 1000) := by
  have h := write_ttl_amended
  exact ⟨h.1 ⟨some 500, some "P", some "solana", none⟩ 500 1000 120000 1000 "solana"
      rfl (by decide) (by decide) rfl,
    h.2.1 "solana" 1 120000 120000,
    h.2.2 ⟨some 1, some "P", some "solana", some ⟨some "T", none, none, none⟩⟩
      1 60001 120000 "S" ⟨some "T", none, none, none⟩ rfl (by decide) (by decide)
      rfl (by decide) rfl rfl (by decide)⟩

/-- C4: on a live record, Finalize with no attached transaction or message
fails with TX_MISSING (HTTP 400), Finalize on a record whose transaction
already carries a txSignature fails with TX_ALREADY_ATTACHED (HTTP 409), and
in both cases the handler performs no store write, so the stored record (in
particular the txSignature set by the first successful Finalize) is unchanged. -/
theorem finalize_tx_guards (r : ActionCodeRec) (sig : String) (ts now ttl : Int)
    (f1 f2 f3 f4 f5 f6 : Bool)
    (hts : r.timestamp = some ts) (hts0 : ts ≠ 0) (hexp : now ≤ ts + ttl) :
    ((r.transaction = none ∨ ∃ tx, r.transaction = some tx ∧
        strTruthy tx.transaction = false ∧ strTruthy tx.message = false) →
      finalizePOST true true sig (some (.ok r)) now ttl f1 f2 f3 f4 f5 f6
        = errResp .TX_MISSING "No transaction attached to this action code" 400 none ∧
      (finalizePOST true true sig (some (.ok r)) now ttl f1 f2 f3 f4 f5 f6).writeTTL
        = none) ∧
    (∀ tx : TxInfo, r.transaction = some tx →
      (strTruthy tx.transaction || strTruthy tx.message) = true →
      strTruthy tx.txSignature = true →
      finalizePOST true true sig (some (.ok r)) now ttl f1 f2 f3 f4 f5 f6
        = errResp .TX_ALREADY_ATTACHED "Action code is already finalized" 409 none ∧
      (finalizePOST true true sig (some (.ok r)) now ttl f1 f2 f3 f4 f5 f6).writeTTL
        = none) := by
  have hj : jsOrNum r.timestamp now = ts := by
    rw [hts]; exact jsOrNum_some_ne ts _ hts0
  constructor
  · intro hmiss
    have hcond : (match r.transaction with
        | none => false
        | some tx => strTruthy tx.transaction || strTruthy tx.message) = false := by
      rcases hmiss with h | ⟨tx, htx, h1, h2⟩
      · rw [h]
      · rw [htx]
        simp [h1, h2]
    have hmain : finalizePOST true true sig (some (.ok r)) now ttl f1 f2 f3 f4 f5 f6
        = errResp .TX_MISSING "No transaction attached to this action code" 400 none := by
      simp only [finalizePOST, Bool.not_true, Bool.false_eq_true, if_false, hj, hcond]
      rw [if_neg (by omega : ¬(ts + ttl < now))]
      simp
    exact ⟨hmain, by rw [hmain]; rfl⟩
  · intro tx htx h1 h2
    have hmain : finalizePOST true true sig (some (.ok r)) now ttl f1 f2 f3 f4 f5 f6
        = errResp .TX_ALREADY_ATTACHED "Action code is already finalized" 409 none := by
      simp only [finalizePOST, Bool.not_true, Bool.false_eq_true, if_false, hj, htx,
        h1, h2]
      rw [if_neg (by omega : ¬(ts + ttl < now))]
      simp
    exact ⟨hmain, by rw [hmain]; rfl⟩

/-- Witness for C4 at concrete records (one with nothing attached, one
already finalized). -/
theorem finalize_tx_guards_witness :
    finalizePOST true true "S" (some (.ok ⟨some 1, some "P", some "solana", none⟩))
      50 120000 false true true false true true
      = errResp .TX_MISSING "No transaction attached to this action code" 400 none ∧
    finalizePOST true true "S"
      (some (.ok ⟨some 1, some "P", some "solana",
        some ⟨some "T", some "SIG1", none, none⟩⟩)) 50 120000
      false true true false true true
      = errResp .TX_ALREADY_ATTACHED "Action code is already finalized" 409 none := by
  have h1 := finalize_tx_guards ⟨some 1, some "P", some "solana", none⟩ "S" 1 50 120000
    false true true false true true rfl (by decide) (by decide)
  have h2 := finalize_tx_guards
    ⟨some 1, some "P", some "solana", some ⟨some "T", some "SIG1", none, none⟩⟩
    "S" 1 50 120000 false true true false true true rfl (by decide) (by decide)
  exact ⟨(h1.1 (Or.inl rfl)).1,
    (h2.2 ⟨some "T", some "SIG1", none, none⟩ rfl (by decide) (by decide)).1⟩

/-- C5: on a live record that already has a transaction attached, Attach
fails with TX_ALREADY_ATTACHED (HTTP 409) and performs no store write, so
the stored ciphertext is unchanged; moreover any Attach call that does write
was made on a record with no transaction attached, so at most one
transaction is ever attached per record. -/
theorem attach_already_attached (r : ActionCodeRec) (ts now ttl now2 : Int)
    (ch : String) (cs af eo : Bool) (tx : TxInfo)
    (hts : r.timestamp = some ts) (hts0 : ts ≠ 0) (hlive : now < ts + ttl)
    (htx : r.transaction = some tx) :
    (attachPOST true true (some (.ok r)) now ttl ch cs af eo now2
      = errResp .TX_ALREADY_ATTACHED "Transaction already attached to this code" 409 none) ∧
    (∀ (r2 : ActionCodeRec) (fetched2 : Option Decoded) (now3 ttl2 now4 : Int)
       (ch2 : String) (cs2 af2 eo2 j2 s2 : Bool),
      fetched2 = some (.ok r2) →
      (attachPOST j2 s2 fetched2 now3 ttl2 ch2 cs2 af2 eo2 now4).writeTTL.isSome
        → r2.transaction = none) := by
  constructor
  · have hj : jsOrNum r.timestamp now = ts := by
      rw [hts]; exact jsOrNum_some_ne ts _ hts0
    simp only [attachPOST, Bool.not_true, Bool.false_eq_true, if_false, hj, htx]
    rw [if_neg (by omega : ¬(max 0 (ts + ttl - now) ≤ 0))]
    simp
  · intro r2 fetched2 now3 ttl2 now4 ch2 cs2 af2 eo2 j2 s2 hf hw
    subst hf
    by_contra hne
    rcases hx : r2.transaction with - | tx2
    · exact hne hx
    · rw [attachPOST] at hw
      simp only [hx] at hw
      repeat' split at hw
      all_goals simp_all [errResp, mkErr]

/-- Witness for C5 at a concrete already-attached record. -/
theorem attach_already_attached_witness :
    attachPOST true true
      (some (.ok ⟨some 1, some "P", some "solana",
        some ⟨some "T", none, none, none⟩⟩)) 50 120000 "solana" true true true 50
      = errResp .TX_ALREADY_ATTACHED "Transaction already attached to this code" 409 none :=
  (attach_already_attached
    ⟨some 1, some "P", some "solana", some ⟨some "T", none, none, none⟩⟩
    1 50 120000 50 "solana" true true true ⟨some "T", none, none, none⟩
    rfl (by decide) (by decide) rfl).1

/-- C7 counterexample: the TTL Attach sends to the store is not an integer
rounded up from the remaining lifetime: with 119500 ms remaining it sends
ex = 119.5 seconds (a rational with denominator 2, not an integer, and not
the rounded-up 120). -/
theorem attach_write_ttl_cex :
    (attachPOST true true (some (.ok ⟨some 500, some "P", some "solana", none⟩))
      1000 120000 "solana" true true true 1000).writeTTL
      = some ((((120000 : Int) : ℚ) - (((1000 : Int) : ℚ) - ((500 : Int) : ℚ))) / 1000) ∧
    ((((120000 : Int) : ℚ) - (((1000 : Int) : ℚ) - ((500 : Int) : ℚ))) / 1000).den = 2 := by
  constructor
  · rfl
  · norm_num [show (((120000 : Int) : ℚ) - (((1000 : Int) : ℚ) - ((500 : Int) : ℚ))) / 1000
      = 239 / 2 by norm_num, Rat.den]

/-- C7 (amended): with the clock read once (now2 = now) and a positive
configured lifetime, every TTL the three writing handlers send is positive;
but it is not an integer rounded up from the remaining lifetime: Attach sends
the exact remaining seconds as a rational (fractional when the remaining
milliseconds are not a multiple of 1000), Register sends the configured
millisecond value, Finalize sends the full lifetime over 1000, and no guard
floors the value at 1. -/
theorem write_ttl_positive_amended :
    (∀ (r : ActionCodeRec) (ts now ttl : Int) (ch : String),
      r.timestamp = some ts → ts ≠ 0 → now < ts + ttl → r.transaction = none →
      ∃ q : ℚ, (attachPOST true true (some (.ok r)) now ttl ch true true true now).writeTTL
        = some q ∧ 0 < q) ∧
    (∀ (ch : String) (ts ttl rem : Int), 0 < ttl →
      ∃ q : ℚ, (registerPOST true true ch true true true ts ttl true true rem).writeTTL
        = some q ∧ 0 < q) ∧
    (∀ (r : ActionCodeRec) (ts now ttl : Int) (sig : String) (tx : TxInfo),
      r.timestamp = some ts → ts ≠ 0 → now ≤ ts + ttl → 0 < ttl →
      r.transaction = some tx → strTruthy tx.transaction = true →
      tx.txSignature = none → r.chain = some "solana" → sig ≠ "" →
      ∃ q : ℚ, (finalizePOST true true sig (some (.ok r)) now ttl
        false true true false true true).writeTTL = some q ∧ 0 < q) := by
  refine ⟨?_, ?_, ?_⟩
  · intro r ts now ttl ch hts hts0 hlive htx
    have hj : jsOrNum r.timestamp now = ts := by
      rw [hts]; exact jsOrNum_some_ne ts _ hts0
    refine ⟨((ttl : ℚ) - ((now : ℚ) - (ts : ℚ))) / 1000, ?_, ?_⟩
    · simp only [attachPOST, Bool.not_true, Bool.false_eq_true, if_false, hj, htx]
      rw [if_neg (by omega : ¬(max 0 (ts + ttl - now) ≤ 0))]
      simp only [Option.isSome_none, Bool.false_eq_true, if_false, Bool.not_true,
        if_true, attachResponseSchemaOk_false]
    · have h0 : (0 : Int) < ttl - (now - ts) := by omega
      have h1 : (0 : ℚ) < ((ttl - (now - ts) : Int) : ℚ) := by exact_mod_cast h0
      have h2 : ((ttl - (now - ts) : Int) : ℚ) = (ttl : ℚ) - ((now : ℚ) - (ts : ℚ)) := by
        push_cast
        ring
      rw [h2] at h1
      exact div_pos h1 (by norm_num)
  · intro ch ts ttl rem httl
    refine ⟨(ttl : ℚ), ?_, by exact_mod_cast httl⟩
    simp only [registerPOST, Bool.not_true, Bool.false_eq_true, if_false, if_true]
    split <;> rfl
  · intro r ts now ttl sig tx hts hts0 hle httl htx htr hsig hch hsg
    have hj : jsOrNum r.timestamp now = ts := by
      rw [hts]; exact jsOrNum_some_ne ts _ hts0
    refine ⟨(ttl : ℚ) / 1000, ?_, ?_⟩
    · simp only [finalizePOST, Bool.not_true, Bool.false_eq_true, if_false, hj, htx,
        htr, hsig, hch]
      rw [if_neg (by omega : ¬(ts + ttl < now))]
      simp only [strTruthy, Bool.true_or, Bool.not_true, Bool.false_eq_true, if_false]
      have hbne : (sig != "") = true := by simp [hsg]
      simp only [finalizeVerify, finalizeCommit, hbne, eq_self_iff_true, if_true,
        Bool.not_true, Bool.false_eq_true, if_false]
      repeat' split
      all_goals first | rfl | simp_all
    · have h1 : (0 : ℚ) < (ttl : ℚ) := by exact_mod_cast httl
      exact div_pos h1 (by norm_num)

/-- Witness for the amended C7 at concrete records and instants. -/
theorem write_ttl_positive_amended_witness :
    (∃ q : ℚ, (attachPOST true true
        (some (.ok ⟨some 500, some "P", some "solana", none⟩))
        1000 120000 "solana" true true true 1000).writeTTL = some q ∧ 0 < q) ∧
    (∃ q : ℚ, (registerPOST true true "solana" true true true 1 120000
        true true 120000).writeTTL = some q ∧ 0 < q) ∧
    (∃ q : ℚ, (finalizePOST true true "S"
        (some (.ok ⟨some 1, some "P", some "solana",
          some ⟨some "T", none, none, none⟩⟩)) 60001 120000
        false true true false true true).writeTTL = some q ∧ 0 < q) := by
  have h := write_ttl_positive_amended
  exact ⟨h.1 ⟨some 500, some "P", some "solana", none⟩ 500 1000 120000 "solana"
      rfl (by decide) (by decide) rfl,
    h.2.1 "solana" 1 120000 120000 (by decide),
    h.2.2 ⟨some 1, some "P", some "solana", some ⟨some "T", none, none, none⟩⟩
      1 60001 120000 "S" ⟨some "T", none, none, none⟩ rfl (by decide) (by decide)
      (by decide) rfl (by decide) rfl rfl (by decide)⟩

/-- A non-200 response whose body is the uniform error envelope, with the
envelope status mirroring the transport status and error set to true. -/
def envelopeUniform (resp : RouteResponse) : Prop :=
  resp.http ≠ 200 →
    ∃ e, resp.body = RouteBody.envelope e ∧ e.status = resp.http ∧ e.error = true

/-- C9 counterexample: the Status endpoint answers a missing code with
HTTP 404 and the body of StatusErrorResponseSchema (an error message string
and the literal status "error"), which is not the uniform envelope: it has
no code field, its error field is a message rather than true, and its status
field is the string "error" rather than the transport status. -/
theorem status_error_shape_cex :
    statusGET true none 0 0
      = ⟨404, .statusErr "Code not found or expired" "error", none⟩ := by
  rfl

/-- Boolean check of envelope uniformity: an envelope body must mirror the
transport status and carry error true; a schema-validated JSON body must ride
on HTTP 200; the Status error shape never counts as uniform. -/
def envUniformB (resp : RouteResponse) : Bool :=
  match resp.body with
  | .envelope e => decide (e.status = resp.http) && e.error
  | .json _ => decide (resp.http = 200)
  | .statusErr _ _ => false

/-- A response passing the Boolean envelope check is envelope-uniform. -/
theorem envUniformB_spec (resp : RouteResponse) (h : envUniformB resp = true) :
    envelopeUniform resp := by
  intro hne
  rcases hb : resp.body with e | o | ⟨m, st⟩
  · simp only [envUniformB, hb, Bool.and_eq_true, decide_eq_true_eq] at h
    exact ⟨e, rfl, h.1, h.2⟩
  · simp only [envUniformB, hb, decide_eq_true_eq] at h
    exact absurd h hne
  · simp only [envUniformB, hb] at h
    exact absurd h (by decide)

/-- Every register response passes the envelope check. -/
theorem registerPOST_envB (j s : Bool) (ch : String) (cs af cv : Bool)
    (ts ttl : Int) (co so : Bool) (rem : Int) :
    envUniformB (registerPOST j s ch cs af cv ts ttl co so rem) = true := by
  simp only [registerPOST, errResp]
  repeat' split
  all_goals rfl

/-- Every resolve response passes the envelope check. -/
theorem resolvePOST_envB (j s : Bool) (f : Option Decoded) (now ttl : Int) :
    envUniformB (resolvePOST j s f now ttl) = true := by
  simp only [resolvePOST, errResp]
  repeat' split
  all_goals rfl

/-- Every attach response passes the envelope check. -/
theorem attachPOST_envB (j s : Bool) (f : Option Decoded) (now ttl : Int)
    (ch : String) (cs af eo : Bool) (n2 : Int) :
    envUniformB (attachPOST j s f now ttl ch cs af eo n2) = true := by
  simp only [attachPOST, errResp]
  repeat' split
  all_goals rfl

/-- The finalize commit tail passes the envelope check. -/
theorem finalizeCommit_envB (sig : String) (e ttl : Int) (extOk : Bool) :
    envUniformB (finalizeCommit sig e ttl extOk) = true := by
  simp only [finalizeCommit]
  repeat' split
  all_goals rfl

/-- The finalize verification block passes the envelope check. -/
theorem finalizeVerify_envB (sig : String) (f1 f2 f3 f4 f5 : Bool)
    (e ttl : Int) (extOk : Bool) :
    envUniformB (finalizeVerify sig f1 f2 f3 f4 f5 e ttl extOk) = true := by
  simp only [finalizeVerify, errResp]
  repeat' split
  all_goals first
    | rfl
    | exact finalizeCommit_envB sig e ttl extOk

/-- Every finalize response passes the envelope check. -/
theorem finalizePOST_envB (j s : Bool) (sig : String) (f : Option Decoded)
    (now ttl : Int) (f1 f2 f3 f4 f5 f6 : Bool) :
    envUniformB (finalizePOST j s sig f now ttl f1 f2 f3 f4 f5 f6) = true := by
  simp only [finalizePOST, errResp]
  repeat' split
  all_goals first
    | rfl
    | exact finalizeVerify_envB sig f1 f2 f3 f4 f5 _ ttl f6

/-- Boolean check of the Status endpoint shape: errors carry the literal
status "error"; a schema-validated JSON body rides on HTTP 200. -/
def statusShapeB (resp : RouteResponse) : Bool :=
  match resp.body with
  | .statusErr _ s => s == "error"
  | .json _ => decide (resp.http = 200)
  | .envelope _ => false

/-- Every status response passes the shape check. -/
theorem statusGET_shapeB (s : Bool) (f : Option Decoded) (now ttl : Int) :
    statusShapeB (statusGET s f now ttl) = true := by
  simp only [statusGET]
  repeat' split
  all_goals rfl

/-- C9 (amended): every error response of the Register, Resolve, Attach, and
Finalize endpoints is the uniform envelope with its status field mirroring
the transport status; the Status endpoint instead answers every error with
the distinct shape of StatusErrorResponseSchema. -/
theorem error_envelope_amended :
    (∀ (j s : Bool) (ch : String) (cs af cv : Bool) (ts ttl : Int) (co so : Bool)
        (rem : Int),
      envelopeUniform (registerPOST j s ch cs af cv ts ttl co so rem)) ∧
    (∀ (j s : Bool) (f : Option Decoded) (now ttl : Int),
      envelopeUniform (resolvePOST j s f now ttl)) ∧
    (∀ (j s : Bool) (f : Option Decoded) (now ttl : Int) (ch : String)
        (cs af eo : Bool) (n2 : Int),
      envelopeUniform (attachPOST j s f now ttl ch cs af eo n2)) ∧
    (∀ (j s : Bool) (sig : String) (f : Option Decoded) (now ttl : Int)
        (f1 f2 f3 f4 f5 f6 : Bool),
      envelopeUniform (finalizePOST j s sig f now ttl f1 f2 f3 f4 f5 f6)) ∧
    (∀ (s : Bool) (f : Option Decoded) (now ttl : Int),
      (statusGET s f now ttl).http ≠ 200 →
        ∃ m, (statusGET s f now ttl).body = RouteBody.statusErr m "error") := by
  refine ⟨?_, ?_, ?_, ?_, ?_⟩
  · intro j s ch cs af cv ts ttl co so rem
    exact envUniformB_spec _ (registerPOST_envB j s ch cs af cv ts ttl co so rem)
  · intro j s f now ttl
    exact envUniformB_spec _ (resolvePOST_envB j s f now ttl)
  · intro j s f now ttl ch cs af eo n2
    exact envUniformB_spec _ (attachPOST_envB j s f now ttl ch cs af eo n2)
  · intro j s sig f now ttl f1 f2 f3 f4 f5 f6
    exact envUniformB_spec _ (finalizePOST_envB j s sig f now ttl f1 f2 f3 f4 f5 f6)
  · intro s f now ttl hne
    have hb := statusGET_shapeB s f now ttl
    rcases hx : (statusGET s f now ttl).body with e | o | ⟨m, st⟩
    · simp only [statusShapeB, hx] at hb
      exact absurd hb (by decide)
    · simp only [statusShapeB, hx, decide_eq_true_eq] at hb
      exact absurd hb hne
    · simp only [statusShapeB, hx, beq_iff_eq] at hb
      subst hb
      exact ⟨m, rfl⟩

/-- The status route response object always fails StatusResponseSchema:
whatever the derived status and optional finalizedSignature, the required
hasMessage boolean is absent. -/
theorem statusSchemaOk_route_false (st : String) (e : Int) (b : Bool)
    (tail : JObj) (h : jget tail "hasMessage" = none) :
    statusResponseSchemaOk
      ([("status", .s st), ("expiresAt", .i e), ("hasTransaction", .b b)] ++ tail)
      = false := by
  have hmsg : reqBool
      (("status", JVal.s st) :: ("expiresAt", JVal.i e)
        :: ("hasTransaction", JVal.b b) :: tail) "hasMessage" = false := by
    simp [reqBool, jget, h]
  simp [statusResponseSchemaOk, hmsg]

/-- C10 counterexample: for a stored record whose decrypted payload has no
timestamp field, the Status endpoint does not report the full lifetime: its
success object fails StatusResponseSchema (no hasMessage), so the caller
receives a 400 invalid-code-format error and nothing is reported at all. -/
theorem status_missing_timestamp_cex :
    statusGET true (some (.ok ⟨none, some "P", some "solana", none⟩)) 1000 120000
      = ⟨400, .statusErr "Invalid code format" "error", none⟩ := by
  rfl

/-- C10 (amended): for a record with a falsy (absent or zero) timestamp,
Resolve substitutes the current time, reporting the full configured lifetime
remaining with status active, and Attach likewise never rejects it with
CODE_EXPIRED; the Status endpoint also substitutes the current time in its
expiresAt computation, but its response always fails StatusResponseSchema
(hasMessage is required and never set), so it answers with a 400
invalid-code-format error instead of a report. -/
theorem falsy_timestamp_amended (r : ActionCodeRec) (now ttl : Int) (p c : String)
    (hfalsy : r.timestamp = none ∨ r.timestamp = some 0)
    (hp : r.pubkey = some p) (hc : r.chain = some c)
    (hnow : 0 < now) (httl : 0 < ttl) :
    resolvePOST true true (some (.ok r)) now ttl
      = ⟨200, .json [("codeHash", .s "sha256-of-code"), ("issuedAt", .i now),
          ("expiresAt", .i (now + ttl)), ("remainingInSeconds", .i (ttl / 1000)),
          ("status", .s "active"), ("pubkey", .s p), ("chain", .s c)], none⟩ ∧
    (∀ (ch : String) (cs af eo : Bool) (n2 : Int),
      errCodeOf (attachPOST true true (some (.ok r)) now ttl ch cs af eo n2)
        ≠ some .CODE_EXPIRED) ∧
    statusGET true (some (.ok r)) now ttl
      = ⟨400, .statusErr "Invalid code format" "error", none⟩ := by
  have hj := jsOrNum_falsy r.timestamp now hfalsy
  refine ⟨?_, ?_, ?_⟩
  · have hrem : max 0 (now + ttl - now) = ttl := by omega
    have hdivnn : (0 : Int) ≤ ttl / 1000 := by positivity
    have hsch := resolveSchemaOk_concrete now (now + ttl) (ttl / 1000) "active" p c
      hnow (by omega) hdivnn (by decide)
    simp only [resolvePOST, Bool.not_true, Bool.false_eq_true, if_false, hj, hrem,
      hp, hc]
    rw [if_neg (by omega : ¬(ttl ≤ 0))]
    norm_num [hsch]
  · intro ch cs af eo n2 hcon
    simp only [attachPOST, Bool.not_true, Bool.false_eq_true, if_false, hj] at hcon
    rw [if_neg (by omega : ¬(max 0 (now + ttl - now) ≤ 0))] at hcon
    repeat' split at hcon
    all_goals simp_all [errCodeOf, errResp, mkErr, attachResponseSchemaOk_false]
  · simp only [statusGET, Bool.not_true, Bool.false_eq_true, if_false, hj]
    rcases htx : r.transaction with - | tx
    · simp only [htx]
      rw [statusSchemaOk_route_false _ _ _ [] rfl]
      rfl
    · rcases hsg : tx.txSignature with - | sig
      · simp only [htx, hsg]
        rw [statusSchemaOk_route_false _ _ _ [] rfl]
        rfl
      · simp only [htx, hsg]
        rw [statusSchemaOk_route_false _ _ _ [("finalizedSignature", JVal.s sig)] rfl]
        rfl

/-- Witness for the amended C10 at a concrete record with no timestamp. -/
theorem falsy_timestamp_amended_witness :
    resolvePOST true true (some (.ok ⟨none, some "P", some "solana", none⟩))
      1000 120000
      = ⟨200, .json [("codeHash", .s "sha256-of-code"), ("issuedAt", .i 1000),
          ("expiresAt", .i (1000 + 120000)),
          ("remainingInSeconds", .i ((120000 : Int) / 1000)),
          ("status", .s "active"), ("pubkey", .s "P"), ("chain", .s "solana")], none⟩ ∧
    errCodeOf (attachPOST true true
      (some (.ok ⟨none, some "P", some "solana", none⟩)) 1000 120000
      "solana" true true true 1000) ≠ some .CODE_EXPIRED ∧
    statusGET true (some (.ok ⟨none, some "P", some "solana", none⟩)) 1000 120000
      = ⟨400, .statusErr "Invalid code format" "error", none⟩ := by
  have h := falsy_timestamp_amended ⟨none, some "P", some "solana", none⟩ 1000 120000
    "P" "solana" (Or.inl rfl) rfl rfl (by decide) (by decide)
  exact ⟨h.1, h.2.1 "solana" true true true 1000, h.2.2⟩

/-- Witness for the amended C9 at concrete error calls. -/
theorem error_envelope_amended_witness :
    (∃ e, (resolvePOST true true none 0 0).body = RouteBody.envelope e
      ∧ e.status = (resolvePOST true true none 0 0).http ∧ e.error = true) ∧
    (∃ m, (statusGET true none 0 0).body = RouteBody.statusErr m "error") := by
  have h := error_envelope_amended
  exact ⟨h.2.1 true true none 0 0 (by decide), h.2.2.2.2 true none 0 0 (by decide)⟩

end Relayer

